import Mathlib

/-!
Shallow embedding of the detection-and-enrichment pipeline of the
equipment-scanner repository (src/server/main.py and src/ml/webcam.py).

External collaborators are parameters of the embedding: the base64
decoder, the image codec and the YOLO detector appear as functions that
return none on failure.  Everything else is translated from the source.
Python floats are modelled as rationals; the Python round builtin
(banker rounding) is modelled by rndNearestEven below; Python
dictionaries are modelled as association lists where a later entry
overwrites an earlier one (dictGet).  A raised exception is modelled by
Except.error carrying the message, or by none for external calls.
-/

/-- Lower-casing of a string, character by character; models the Python
str.lower method (the two agree on the ASCII labels this system uses). -/
def strLower (s : String) : String := ⟨s.data.map Char.toLower⟩

/-- Remainder of a character list after the first comma, when one occurs. -/
def afterComma : List Char → Option (List Char)
  | [] => none
  | c :: rest => if c = ',' then some rest else afterComma rest

/-- Models the header stripping of decode_image: the Python call
data_url.split with separator comma and maxsplit 1, keeping the second
part, and the whole string when no comma occurs. -/
def stripHeader (s : String) : String :=
  match afterComma s.data with
  | some rest => ⟨rest⟩
  | none => s

/-- Lookup in a Python dictionary built from the entries of the list in
order: a later binding of the same key overwrites an earlier one, and an
absent key yields none (the dict.get default). -/
def dictGet {K V : Type} [DecidableEq K] : List (K × V) → K → Option V
  | [], _ => none
  | kv :: rest, k =>
    match dictGet rest k with
    | some v => some v
    | none => if kv.1 = k then some kv.2 else none

/-- Translation of decode_image (src/server/main.py, lines 55 to 72).
The base64 decoder and the image codec are external capabilities; a
failed base64 decode raises, and a failed cv2.imdecode returns None,
both modelled by none.  The returned Except.error carries the message of
the raised ValueError. -/
def decode_image {B F : Type} (b64 : String → Option B) (imdecode : B → Option F)
    (dataUrl : String) : Except String F :=
  match b64 (stripHeader dataUrl) with
  | none => Except.error "Invalid base64 string"
  | some raw =>
    match imdecode raw with
    | none => Except.error "Unable to decode image"
    | some frame => Except.ok frame

/-- Nearest integer to the fraction n / d (for positive d), ties going
to the even integer; models the Python round builtin on an exact
rational value. -/
def rndNearestEven (n d : Int) : Int :=
  let q := n / d
  let r := n % d
  if 2 * r < d then q
  else if d < 2 * r then q + 1
  else if q % 2 = 0 then q else q + 1

/-- Models the Python call round with second argument 3 on a rational:
the multiple of 1/1000 nearest to the value, ties to even. -/
def round3 (x : ℚ) : ℚ := mkRat (rndNearestEven (x.num * 1000) (x.den : Int)) 1000

/-- One raw candidate of the detector: the class id int(box.cls[0]),
the confidence float(box.conf[0]) and the four xyxy coordinates. -/
structure RawBox where
  cls : Nat
  conf : ℚ
  x1 : ℚ
  y1 : ℚ
  x2 : ℚ
  y2 : ℚ
  deriving DecidableEq

/-- The bbox object of a detection record, the four named fields built
in format_detections. -/
structure BBox where
  x1 : ℚ
  y1 : ℚ
  x2 : ℚ
  y2 : ℚ
  deriving DecidableEq

/-- One detection record of the response, with details of type V (the
opaque payload of equipment.json). -/
structure Detection (V : Type) where
  label : String
  confidence : ℚ
  bbox : BBox
  details : Option V
  deriving DecidableEq

/-- One result object of a YOLO call: its class-name table and its
boxes. -/
structure YoloResult where
  names : List (Nat × String)
  boxes : List RawBox
  deriving DecidableEq

/-- The JSON object returned by the scan handler on success. -/
structure ScanResult (V : Type) where
  found : Bool
  count : Nat
  detections : List (Detection V)
  deriving DecidableEq

/-- Translation of load_equipment_data (src/server/main.py, lines 32 to
38): the keys of the parsed JSON object are lower-cased; a missing file
is the empty table. -/
def load_equipment_data {V : Type} (data : List (String × V)) : List (String × V) :=
  data.map (fun kv => (strLower kv.1, kv.2))

/-- Translation of attach_details (src/server/main.py, lines 75 to 77):
lookup of the lower-cased label in the equipment table. -/
def attach_details {V : Type} (db : List (String × V)) (label : String) : Option V :=
  dictGet db (strLower label)

/-- The loop body of format_detections: one raw box becomes one
detection record, with the label resolved through names.get and its
fallback, the confidence rounded to 3 decimals, the box copied and the
details attached. -/
def toDetection {V : Type} (db : List (String × V)) (names : List (Nat × String))
    (b : RawBox) : Detection V :=
  let label := (dictGet names b.cls).getD ("class_" ++ toString b.cls)
  { label := label
    confidence := round3 b.conf
    bbox := ⟨b.x1, b.y1, b.x2, b.y2⟩
    details := attach_details db label }

/-- The ranking order of format_detections: the Python sorted call with
key confidence and reverse true places a before b exactly when the
confidence of b is at most the confidence of a, keeping equal keys in
input order. -/
def confGe {V : Type} (a b : Detection V) : Prop := b.confidence ≤ a.confidence

instance {V : Type} (a b : Detection V) : Decidable (confGe a b) :=
  inferInstanceAs (Decidable (b.confidence ≤ a.confidence))

instance {V : Type} : IsTotal (Detection V) confGe :=
  ⟨fun a b => le_total b.confidence a.confidence⟩

instance {V : Type} : IsTrans (Detection V) confGe :=
  ⟨fun _ _ _ h1 h2 => le_trans h2 h1⟩

/-- Translation of format_detections (src/server/main.py, lines 80 to
102): every box of the result becomes a record, and the records are
sorted descending by confidence.  The Python sort is stable, which
insertion sort reproduces. -/
def format_detections {V : Type} (db : List (String × V)) (r : YoloResult) :
    List (Detection V) :=
  List.insertionSort confGe (r.boxes.map (toDetection db r.names))

/-- Translation of the scan handler (src/server/main.py, lines 121 to
139).  A decode failure becomes the pair of status 400 and the decode
message of the raised HTTPException; an empty results list becomes
status 500; otherwise the handler builds the response from the first
result.  The detector is an external capability taking the frame, the
confidence threshold and the optional inference size. -/
def scan {V B F : Type} (db : List (String × V)) (b64 : String → Option B)
    (imdecode : B → Option F) (detect : F → ℚ → Option Nat → List YoloResult)
    (image : String) : Except (Nat × String) (ScanResult V) :=
  match decode_image b64 imdecode image with
  | Except.error msg => Except.error (400, msg)
  | Except.ok frame =>
    match detect frame (mkRat 3 10) none with
    | [] => Except.error (500, "Model did not return results")
    | r :: _ =>
      let detections := format_detections db r
      Except.ok ⟨decide (0 < detections.length), detections.length, detections⟩

/-- Models the Python format directive .2f on a confidence in [0, 1]:
round half to even at 2 decimals and print exactly two digits after the
point. -/
def fmtConf2 (x : ℚ) : String :=
  let n := rndNearestEven (x.num * 100) (x.den : Int)
  toString (n / 100) ++ "." ++ (if n % 100 < 10 then "0" else "") ++ toString (n % 100)

/-- Translation of the per-box work of the loop of src/ml/webcam.py
(lines 26 to 31): the overlay label drawn for one box.  The names table
is indexed directly there, so an absent class id raises KeyError,
modelled by none; the confidence is kept unrounded and formatted at 2
decimals inside the label. -/
def webcamBoxLabel (names : List (Nat × String)) (b : RawBox) : Option String :=
  match dictGet names b.cls with
  | none => none
  | some n => some (n ++ " " ++ fmtConf2 b.conf)

/-- Accuracy of rndNearestEven: the result is within half a unit of the
fraction n / d, and a tie is resolved to an even integer. -/
theorem rndNearestEven_spec (n d : Int) (hd : 0 < d) :
    2 * ((n - rndNearestEven n d * d).natAbs : Int) ≤ d ∧
      (2 * ((n - rndNearestEven n d * d).natAbs : Int) = d →
        rndNearestEven n d % 2 = 0) := by
  have h2 : 0 ≤ n % d := Int.emod_nonneg n (ne_of_gt hd)
  have h3 : n % d < d := Int.emod_lt_of_pos n hd
  have e0 : n - n / d * d = n % d := by rw [Int.emod_def]; ring
  have e1 : n - (n / d + 1) * d = n % d - d := by rw [Int.emod_def]; ring
  unfold rndNearestEven
  dsimp only
  split_ifs with c1 c2 c3 <;> constructor <;> simp only [e0, e1] <;> omega

/-- Inserting a record whose confidence is c places it in front of every
record of confidence c already present: the skipped records all have
strictly larger confidence. -/
theorem filter_orderedInsert_self {V : Type} (c : ℚ) (a : Detection V)
    (l : List (Detection V)) (ha : a.confidence = c) :
    (List.orderedInsert confGe a l).filter (fun d => d.confidence = c) =
      a :: l.filter (fun d => d.confidence = c) := by
  induction l with
  | nil => simp [List.orderedInsert, ha]
  | cons b t ih =>
    rcases Decidable.em (confGe a b) with h | h
    · simp [List.orderedInsert, h, ha]
    · have hab : a.confidence < b.confidence := not_le.mp h
      have hbc : ¬ (b.confidence = c) := by
        rw [← ha]
        exact ne_of_gt hab
      simp [List.orderedInsert, h, hbc, ih]

/-- Inserting a record whose confidence is not c leaves the subsequence
of records of confidence c unchanged. -/
theorem filter_orderedInsert_ne {V : Type} (c : ℚ) (a : Detection V)
    (l : List (Detection V)) (ha : ¬ (a.confidence = c)) :
    (List.orderedInsert confGe a l).filter (fun d => d.confidence = c) =
      l.filter (fun d => d.confidence = c) := by
  induction l with
  | nil => simp [List.orderedInsert, ha]
  | cons b t ih =>
    rcases Decidable.em (confGe a b) with h | h
    · simp [List.orderedInsert, h, ha]
    · rw [List.orderedInsert, if_neg h, List.filter_cons, List.filter_cons, ih]

/-- Stability of the ranking sort: for every confidence value, the
subsequence of records carrying that confidence is unchanged by the
sort. -/
theorem filter_insertionSort_confGe {V : Type} (c : ℚ) (l : List (Detection V)) :
    (List.insertionSort confGe l).filter (fun d => d.confidence = c) =
      l.filter (fun d => d.confidence = c) := by
  induction l with
  | nil => rfl
  | cons a t ih =>
    show (List.orderedInsert confGe a (List.insertionSort confGe t)).filter _ = _
    rcases Decidable.em (a.confidence = c) with h | h
    · rw [filter_orderedInsert_self c a _ h, ih]
      simp [List.filter_cons, h]
    · rw [filter_orderedInsert_ne c a _ h, ih]
      simp [List.filter_cons, h]

/-- C2: the detections sequence returned by the ranking step is sorted
descending by confidence: whenever positions i and i + 1 both hold a
record, the later confidence is at most the earlier one. -/
theorem ranking_sorted_desc {V : Type} (db : List (String × V)) (r : YoloResult)
    (i : Nat) (a b : Detection V)
    (ha : (format_detections db r)[i]? = some a)
    (hb : (format_detections db r)[i + 1]? = some b) :
    b.confidence ≤ a.confidence := by
  have hs : List.Pairwise confGe (format_detections db r) :=
    List.sorted_insertionSort confGe (r.boxes.map (toDetection db r.names))
  rw [List.getElem?_eq_some] at ha hb
  obtain ⟨hia, rfl⟩ := ha
  obtain ⟨hib, rfl⟩ := hb
  exact List.pairwise_iff_getElem.mp hs i (i + 1) hia hib (Nat.lt_succ_self i)

/-- C2 witness: on a concrete two-box result the sorted output places
the 0.9 record before the 0.5 record, and adjacent confidences obey the
descending bound. -/
theorem ranking_sorted_desc_app :
    (mkRat 1 2 : ℚ) ≤ mkRat 9 10 :=
  ranking_sorted_desc ([] : List (String × Nat))
    ⟨[], [⟨0, mkRat 1 2, 0, 0, 0, 0⟩, ⟨0, mkRat 9 10, 0, 0, 0, 0⟩]⟩ 0
    ⟨"class_0", mkRat 9 10, ⟨0, 0, 0, 0⟩, none⟩
    ⟨"class_0", mkRat 1 2, ⟨0, 0, 0, 0⟩, none⟩
    (by decide) (by decide)

/-- C3: the ranking sort is stable with original emission order as the
tie-break: for every confidence value c, the records of confidence c
appear in the ranked output exactly as they appear, in order, among the
normalized records of the raw candidate list.  In particular two raw
candidates with equal confidence keep their relative emission order. -/
theorem ranking_stable_filter {V : Type} (db : List (String × V)) (r : YoloResult)
    (c : ℚ) :
    (format_detections db r).filter (fun d => d.confidence = c) =
      (r.boxes.map (toDetection db r.names)).filter (fun d => d.confidence = c) :=
  filter_insertionSort_confGe c (r.boxes.map (toDetection db r.names))

/-- C10: the sort compares the rounded confidences, so two candidates
whose raw confidences differ but round to the same 3-decimal value keep
their raw emission order in the output, even when raw ordering would
swap them. -/
theorem round_ties_emission_order {V : Type} (db : List (String × V))
    (names : List (Nat × String)) (a b : RawBox)
    (_hne : a.conf ≠ b.conf) (heq : round3 a.conf = round3 b.conf) :
    format_detections db ⟨names, [a, b]⟩ =
      [toDetection db names a, toDetection db names b] := by
  have h : confGe (toDetection db names a) (toDetection db names b) := by
    show round3 b.conf ≤ round3 a.conf
    exact le_of_eq heq.symm
  show List.insertionSort confGe
      [toDetection db names a, toDetection db names b] = _
  simp [List.insertionSort, List.orderedInsert, h]

/-- C10 witness: raw confidences 0.1231 and 0.1234 differ, both round to
0.123, and the output keeps emission order although the second raw value
is the larger one. -/
theorem round_ties_emission_order_app :
    format_detections ([] : List (String × Nat))
        ⟨[], [⟨0, mkRat 1231 10000, 0, 0, 0, 0⟩, ⟨0, mkRat 1234 10000, 0, 0, 0, 0⟩]⟩ =
      [toDetection [] [] ⟨0, mkRat 1231 10000, 0, 0, 0, 0⟩,
        toDetection [] [] ⟨0, mkRat 1234 10000, 0, 0, 0, 0⟩] :=
  round_ties_emission_order [] [] ⟨0, mkRat 1231 10000, 0, 0, 0, 0⟩
    ⟨0, mkRat 1234 10000, 0, 0, 0, 0⟩ (by decide) (by decide)

/-- C4 (amended): in service mode the confidence stored by the
normalizer equals the raw confidence rounded half to even to 3 decimal
places: the stored value is a multiple of 1/1000 whose distance to the
raw value is at most half a thousandth, a tie resolved to an even
numerator.  Interactive mode applies no such rounding; see the
counterexample. -/
theorem service_round3_half_even {V : Type} (db : List (String × V))
    (names : List (Nat × String)) (b : RawBox) :
    (toDetection db names b).confidence = round3 b.conf ∧
      ∃ k : Int, round3 b.conf = mkRat k 1000 ∧
        2 * ((b.conf.num * 1000 - k * (b.conf.den : Int)).natAbs : Int) ≤
            (b.conf.den : Int) ∧
        (2 * ((b.conf.num * 1000 - k * (b.conf.den : Int)).natAbs : Int) =
            (b.conf.den : Int) → k % 2 = 0) := by
  have hd : (0 : Int) < (b.conf.den : Int) := by
    exact_mod_cast b.conf.pos
  exact ⟨rfl, rndNearestEven (b.conf.num * 1000) (b.conf.den : Int), rfl,
    (rndNearestEven_spec (b.conf.num * 1000) (b.conf.den : Int) hd).1,
    (rndNearestEven_spec (b.conf.num * 1000) (b.conf.den : Int) hd).2⟩

/-- C4 witness: on raw confidence 0.0625 the stored confidence is the
even-tie rounding 0.062, which satisfies the half-to-even
characterization. -/
theorem service_round3_half_even_app :
    (toDetection ([] : List (String × Nat)) [] ⟨0, mkRat 625 10000, 0, 0, 0, 0⟩).confidence =
        round3 (mkRat 625 10000) ∧
      ∃ k : Int, round3 (mkRat 625 10000) = mkRat k 1000 ∧
        2 * (((mkRat 625 10000).num * 1000 - k * ((mkRat 625 10000).den : Int)).natAbs : Int) ≤
            ((mkRat 625 10000).den : Int) ∧
        (2 * (((mkRat 625 10000).num * 1000 - k * ((mkRat 625 10000).den : Int)).natAbs : Int) =
            ((mkRat 625 10000).den : Int) → k % 2 = 0) :=
  service_round3_half_even ([] : List (String × Nat)) [] ⟨0, mkRat 625 10000, 0, 0, 0, 0⟩

/-- C4 fails as stated across both deployment shapes: for raw
confidence 0.1234 the service record stores 0.123, while the webcam
loop of src/ml/webcam.py applies no 3-decimal rounding: it keeps the
raw value, which differs from 0.123, and renders it at 2 decimals as
0.12 in the overlay label. -/
theorem interactive_no_round3 :
    (toDetection ([] : List (String × Nat)) [(0, "tool")]
          ⟨0, mkRat 1234 10000, 0, 0, 0, 0⟩).confidence = mkRat 123 1000 ∧
      webcamBoxLabel [(0, "tool")] ⟨0, mkRat 1234 10000, 0, 0, 0, 0⟩ =
        some "tool 0.12" ∧
      mkRat 1234 10000 ≠ mkRat 123 1000 := by
  decide

/-- C5 (amended): the class_<id> fallback exists only in service mode.
When the class id is absent from the name table, the normalizer of
src/server/main.py synthesizes class_<id>, while the loop of
src/ml/webcam.py indexes the table directly and fails (a KeyError,
modelled by none). -/
theorem label_fallback_by_shape {V : Type} (db : List (String × V))
    (names : List (Nat × String)) (b : RawBox)
    (h : dictGet names b.cls = none) :
    (toDetection db names b).label = "class_" ++ toString b.cls ∧
      webcamBoxLabel names b = none := by
  constructor
  · show (dictGet names b.cls).getD ("class_" ++ toString b.cls) = _
    rw [h]
    rfl
  · unfold webcamBoxLabel
    rw [h]

/-- C5 witness: with an empty name table, class id 7 yields the label
class_7 in service mode and a failure in interactive mode. -/
theorem label_fallback_by_shape_app :
    (toDetection ([] : List (String × Nat)) ([] : List (Nat × String))
          ⟨7, mkRat 3 10, 0, 0, 0, 0⟩).label = "class_7" ∧
      webcamBoxLabel ([] : List (Nat × String)) ⟨7, mkRat 3 10, 0, 0, 0, 0⟩ = none := by
  have h := label_fallback_by_shape ([] : List (String × Nat)) ([] : List (Nat × String))
    ⟨7, mkRat 3 10, 0, 0, 0, 0⟩ rfl
  exact ⟨h.1.trans (by decide), h.2⟩

/-- C5 fails as stated: in the interactive shape an unknown class id is
not replaced by a synthesized label; the direct lookup fails, although
the service shape synthesizes class_5 for the same candidate. -/
theorem webcam_no_fallback_cx :
    webcamBoxLabel ([] : List (Nat × String)) ⟨5, mkRat 1 2, 0, 0, 0, 0⟩ = none ∧
      (toDetection ([] : List (String × Nat)) ([] : List (Nat × String))
          ⟨5, mkRat 1 2, 0, 0, 0, 0⟩).label = "class_5" := by
  decide

/-- Lookup in the lower-cased equipment table misses exactly when no
entry of the loaded data has a key that lower-cases to the searched
key. -/
theorem dictGet_load_none_iff {V : Type} (data : List (String × V)) (k : String) :
    dictGet (load_equipment_data data) k = none ↔
      ∀ kv ∈ data, strLower kv.1 ≠ k := by
  induction data with
  | nil => simp [load_equipment_data, dictGet]
  | cons kv t ih =>
    show (match dictGet (load_equipment_data t) k with
          | some v => some v
          | none => if strLower kv.1 = k then some kv.2 else none) = none ↔ _
    rcases hrest : dictGet (load_equipment_data t) k with _ | v
    · have ht : ∀ p ∈ t, strLower p.1 ≠ k := ih.mp hrest
      constructor
      · intro hnone p hp
        rcases List.mem_cons.mp hp with rfl | hm
        · intro hk
          rw [if_pos hk] at hnone
          exact Option.noConfusion hnone
        · exact ht p hm
      · intro hall
        rw [if_neg (hall kv (List.mem_cons_self kv t))]
    · have ht : ¬ ∀ p ∈ t, strLower p.1 ≠ k := by
        intro hall
        rw [← ih] at hall
        rw [hall] at hrest
        exact Option.noConfusion hrest
      constructor
      · intro hnone
        exact Option.noConfusion hnone
      · intro hall
        exact absurd (fun p hp => hall p (List.mem_cons_of_mem kv hp)) ht

/-- C6: enrichment resolves the lower-cased label against the
lower-cased-key table by exact match only, never failing: two labels
with the same lower-casing enrich identically, a label no entry key
lower-cases to gets the explicit absence marker none, and a label some
entry key lower-cases to gets an actual details record. -/
theorem enrichment_case_insensitive {V : Type} (data : List (String × V))
    (label other : String) :
    (strLower other = strLower label →
        attach_details (load_equipment_data data) other =
          attach_details (load_equipment_data data) label) ∧
      ((∀ kv ∈ data, strLower kv.1 ≠ strLower label) →
        attach_details (load_equipment_data data) label = none) ∧
      ((∃ kv ∈ data, strLower kv.1 = strLower label) →
        ∃ v, attach_details (load_equipment_data data) label = some v) := by
  refine ⟨?_, ?_, ?_⟩
  · intro h
    unfold attach_details
    rw [h]
  · intro h
    exact (dictGet_load_none_iff data (strLower label)).mpr h
  · intro h
    rcases hv : dictGet (load_equipment_data data) (strLower label) with _ | v
    · obtain ⟨kv, hkv, he⟩ := h
      exact absurd he ((dictGet_load_none_iff data (strLower label)).mp hv kv hkv)
    · exact ⟨v, hv⟩

/-- C6 witness: an entry keyed wrench is found for the detected labels
WRENCH and Wrench, and the enrichment result is an actual record. -/
theorem enrichment_case_insensitive_app :
    attach_details (load_equipment_data [("wrench", (7 : Nat))]) "WRENCH" =
        attach_details (load_equipment_data [("wrench", (7 : Nat))]) "Wrench" ∧
      ∃ v, attach_details (load_equipment_data [("wrench", (7 : Nat))]) "Wrench" = some v := by
  have h := enrichment_case_insensitive [("wrench", (7 : Nat))] "Wrench" "WRENCH"
  exact ⟨h.1 (by decide), h.2.2 ⟨("wrench", 7), List.mem_singleton.mpr rfl, by decide⟩⟩

/-- C7: every successful scan response satisfies count equal to the
length of the detections sequence and found true exactly when count is
positive. -/
theorem scan_count_found {V B F : Type} (db : List (String × V))
    (b64 : String → Option B) (imdecode : B → Option F)
    (detect : F → ℚ → Option Nat → List YoloResult) (image : String)
    (res : ScanResult V)
    (h : scan db b64 imdecode detect image = Except.ok res) :
    res.count = res.detections.length ∧ (res.found ↔ 0 < res.count) := by
  unfold scan at h
  split at h
  · exact absurd h (by simp)
  · split at h
    · exact absurd h (by simp)
    · simp only [Except.ok.injEq] at h
      subst h
      exact ⟨rfl, by simp⟩

/-- C7 witness: a concrete successful scan with one detection has
count 1, a one-element detections list and found true. -/
theorem scan_count_found_app :
    (⟨true, 1, [⟨"class_0", mkRat 1 2, ⟨0, 0, 0, 0⟩, none⟩]⟩ : ScanResult Nat).count =
        (⟨true, 1, [⟨"class_0", mkRat 1 2, ⟨0, 0, 0, 0⟩, none⟩]⟩ : ScanResult Nat).detections.length ∧
      ((⟨true, 1, [⟨"class_0", mkRat 1 2, ⟨0, 0, 0, 0⟩, none⟩]⟩ : ScanResult Nat).found ↔
        0 < (⟨true, 1, [⟨"class_0", mkRat 1 2, ⟨0, 0, 0, 0⟩, none⟩]⟩ : ScanResult Nat).count) :=
  scan_count_found ([] : List (String × Nat)) (fun _ => some 0) (fun _ => some (0 : Nat))
    (fun _ _ _ => [⟨[], [⟨0, mkRat 1 2, 0, 0, 0, 0⟩]⟩]) "x"
    ⟨true, 1, [⟨"class_0", mkRat 1 2, ⟨0, 0, 0, 0⟩, none⟩]⟩ rfl

/-- C8: when decoding succeeds and the detector runs but its first
result carries zero candidates, the scan succeeds with found false,
count 0 and an empty detections sequence. -/
theorem empty_detections_ok {V B F : Type} (db : List (String × V))
    (b64 : String → Option B) (imdecode : B → Option F)
    (detect : F → ℚ → Option Nat → List YoloResult) (image : String)
    (frame : F) (r : YoloResult) (rest : List YoloResult)
    (hdec : decode_image b64 imdecode image = Except.ok frame)
    (hdet : detect frame (mkRat 3 10) none = r :: rest)
    (hboxes : r.boxes = []) :
    scan db b64 imdecode detect image =
      Except.ok ⟨false, 0, ([] : List (Detection V))⟩ := by
  have hfmt : format_detections db r = ([] : List (Detection V)) := by
    unfold format_detections
    rw [hboxes]
    rfl
  unfold scan
  rw [hdec]
  dsimp only
  rw [hdet]
  dsimp only
  simp [hfmt]

/-- C8 witness: a concrete run where the detector returns one result
object with no boxes yields the empty success response. -/
theorem empty_detections_ok_app :
    scan ([] : List (String × Nat)) (fun _ => some (0 : Nat)) (fun _ => some (0 : Nat))
        (fun _ _ _ => [⟨[(0, "tool")], []⟩]) "data:image;base64,QUJD" =
      Except.ok ⟨false, 0, ([] : List (Detection Nat))⟩ :=
  empty_detections_ok ([] : List (String × Nat)) (fun _ => some (0 : Nat))
    (fun _ => some (0 : Nat)) (fun _ _ _ => [⟨[(0, "tool")], []⟩]) "data:image;base64,QUJD"
    0 ⟨[(0, "tool")], []⟩ [] rfl rfl rfl

/-- C9: with the equipment table, the codecs and the detector fixed, the
scan pipeline is a pure function of the request image, so two
invocations on identical inputs return identical results.  The
embedding mirrors the source, whose only cross-request state is the
table and the loaded model, both read-only. -/
theorem pipeline_deterministic {V B F : Type} (db : List (String × V))
    (b64 : String → Option B) (imdecode : B → Option F)
    (detect : F → ℚ → Option Nat → List YoloResult)
    (img1 img2 : String) (h : img1 = img2) :
    scan db b64 imdecode detect img1 = scan db b64 imdecode detect img2 :=
  congrArg (scan db b64 imdecode detect) h

/-- C9 witness: two invocations on the same concrete data URL agree. -/
theorem pipeline_deterministic_app :
    scan ([] : List (String × Nat)) (fun _ => some (0 : Nat)) (fun _ => some (0 : Nat))
        (fun _ _ _ => [⟨[], [⟨0, mkRat 9 10, 0, 0, 0, 0⟩]⟩]) "data:image;base64,QUJD" =
      scan ([] : List (String × Nat)) (fun _ => some (0 : Nat)) (fun _ => some (0 : Nat))
        (fun _ _ _ => [⟨[], [⟨0, mkRat 9 10, 0, 0, 0, 0⟩]⟩]) "data:image;base64,QUJD" :=
  pipeline_deterministic ([] : List (String × Nat)) (fun _ => some (0 : Nat))
    (fun _ => some (0 : Nat)) (fun _ _ _ => [⟨[], [⟨0, mkRat 9 10, 0, 0, 0, 0⟩]⟩])
    "data:image;base64,QUJD" "data:image;base64,QUJD" rfl

/-- C1: after stripping through the first comma, decoding fails exactly
when the base64 decode of the payload fails or the decoded bytes are
not a readable image; the scan handler surfaces every decode failure
as status 400 carrying the decode message, and when decoding succeeds
the pipeline proceeds, never producing a 400. -/
theorem decode_error_boundary {V B F : Type} (db : List (String × V))
    (b64 : String → Option B) (imdecode : B → Option F)
    (detect : F → ℚ → Option Nat → List YoloResult) (url : String) :
    ((∃ msg, decode_image b64 imdecode url = Except.error msg) ↔
        b64 (stripHeader url) = none ∨
          ∃ raw, b64 (stripHeader url) = some raw ∧ imdecode raw = none) ∧
      (∀ msg, decode_image b64 imdecode url = Except.error msg →
        scan db b64 imdecode detect url = Except.error (400, msg)) ∧
      (∀ f, decode_image b64 imdecode url = Except.ok f →
        ∀ code msg, scan db b64 imdecode detect url = Except.error (code, msg) →
          code = 500) := by
  refine ⟨?_, ?_, ?_⟩
  · unfold decode_image
    rcases hb : b64 (stripHeader url) with _ | raw
    · simp
    · rcases hi : imdecode raw with _ | f <;> simp [hi]
  · intro msg hmsg
    unfold scan
    rw [hmsg]
  · intro f hf code msg hscan
    unfold scan at hscan
    rw [hf] at hscan
    dsimp only at hscan
    split at hscan
    · simp only [Except.error.injEq, Prod.mk.injEq] at hscan
      exact hscan.1.symm
    · exact absurd hscan (by simp)

/-- C1 witness: a payload whose base64 decode fails is surfaced by the
scan handler as status 400 with the message of the decode error. -/
theorem decode_error_boundary_app :
    scan ([] : List (String × Nat)) (fun _ => (none : Option Nat))
        (fun _ => (none : Option Nat)) (fun _ _ _ => []) "not-base64!!" =
      Except.error (400, "Invalid base64 string") :=
  (decode_error_boundary ([] : List (String × Nat)) (fun _ => (none : Option Nat))
      (fun _ => (none : Option Nat)) (fun _ _ _ => []) "not-base64!!").2.1
    "Invalid base64 string" rfl
